import Mathlib

/-!
Verification of the rejson client core (src/lib/rejson.js): a shallow
embedding of the command-binding constructor and the facade methods'
argument/result marshaling, together with a concrete model of the host
primitives JSON.stringify and JSON.parse that the facades call.
-/

set_option maxRecDepth 4000

namespace Rejson

/-- Host-language (JavaScript) values as seen by the facade methods:
the structured document values plus the distinguished non-JSON value
undefined (relevant because JSON.stringify maps it to itself). -/
inductive JSValue where
  | undef
  | null
  | boolean (b : Bool)
  | num (n : Int)
  | str (s : String)
  | arr (elems : List JSValue)
  | obj (fields : List (String × JSValue))

/-- The opening-brace character, written via its code point. -/
def lbraceChar : Char := Char.ofNat 123

/-- The closing-brace character, written via its code point. -/
def rbraceChar : Char := Char.ofNat 125

/-- One-character string for the opening brace. -/
def lbraceStr : String := String.singleton lbraceChar

/-- One-character string for the closing brace. -/
def rbraceStr : String := String.singleton rbraceChar

/-- JSON string-literal escaping of a single character. -/
def quoteChar (c : Char) : String :=
  if c = '"' then "\\\""
  else if c = '\\' then "\\\\"
  else if c = '\n' then "\\n"
  else if c = '\t' then "\\t"
  else if c = '\r' then "\\r"
  else String.singleton c

/-- JSON string-literal quoting, as produced by JSON.stringify. -/
def quote (s : String) : String :=
  "\"" ++ String.join (s.data.map quoteChar) ++ "\""

mutual

/-- Canonical JSON text of a value, as produced by JSON.stringify on a
JSON-encodable value; inside arrays undefined serializes as null, and
object fields holding undefined are dropped (JavaScript semantics). -/
def serialize : JSValue → String
  | .undef => "null"
  | .null => "null"
  | .boolean b => cond b "true" "false"
  | .num n => toString n
  | .str s => quote s
  | .arr es => "[" ++ String.intercalate "," (serializeElems es) ++ "]"
  | .obj fs => lbraceStr ++ String.intercalate "," (serializeFields fs) ++ rbraceStr

/-- Serialized texts of array elements, in order. -/
def serializeElems : List JSValue → List String
  | [] => []
  | e :: es => serialize e :: serializeElems es

/-- Serialized member texts of an object; fields holding undefined are
skipped, matching JSON.stringify. -/
def serializeFields : List (String × JSValue) → List String
  | [] => []
  | (k, v) :: fs =>
    match v with
    | .undef => serializeFields fs
    | v' => (quote k ++ ":" ++ serialize v') :: serializeFields fs

end

/-- JSON.stringify as called by the facades: returns the canonical text
as a string value, except that a top-level undefined yields undefined
itself (not a string) — JavaScript semantics. -/
def stringify (v : JSValue) : JSValue :=
  match v with
  | .undef => .undef
  | v' => .str (serialize v')

mutual

/-- ToString coercion JavaScript applies to a non-string argument of
JSON.parse: null coerces to the text null, an array joins its coerced
elements with commas (null and undefined joining as empty), and so on. -/
def jsToString : JSValue → String
  | .undef => "undefined"
  | .null => "null"
  | .boolean b => cond b "true" "false"
  | .num n => toString n
  | .str s => s
  | .arr es => String.intercalate "," (jsToStringElems es)
  | .obj _ => "[object Object]"

/-- Element coercions used by the array join above. -/
def jsToStringElems : List JSValue → List String
  | [] => []
  | .undef :: es => "" :: jsToStringElems es
  | .null :: es => "" :: jsToStringElems es
  | e :: es => jsToString e :: jsToStringElems es

end

/-- Whitespace characters the JSON grammar skips. -/
def isWsChar (c : Char) : Bool :=
  c = ' ' || c = '\n' || c = '\t' || c = '\r'

/-- Drop leading JSON whitespace. -/
def skipWs : List Char → List Char
  | [] => []
  | c :: cs => if isWsChar c then skipWs cs else c :: cs

/-- Match a fixed literal tail, returning the remaining input. -/
def matchLit : List Char → List Char → Option (List Char)
  | [], cs => some cs
  | _, [] => none
  | l :: ls, c :: cs => if c = l then matchLit ls cs else none

/-- Take a maximal run of decimal digits. -/
def takeDigits : List Char → List Char × List Char
  | [] => ([], [])
  | c :: cs =>
    if c.isDigit then
      match takeDigits cs with
      | (ds, rest) => (c :: ds, rest)
    else ([], c :: cs)

/-- Numeric value of a digit run. -/
def digitsToNat : List Char → Nat → Nat
  | [], acc => acc
  | c :: cs, acc => digitsToNat cs (acc * 10 + (c.toNat - 48))

/-- Value of one hexadecimal digit. -/
def hexDigitVal (c : Char) : Option Nat :=
  if c.isDigit then some (c.toNat - 48)
  else if 'a' ≤ c ∧ c ≤ 'f' then some (c.toNat - 87)
  else if 'A' ≤ c ∧ c ≤ 'F' then some (c.toNat - 55)
  else none

/-- Unescaped meaning of a single-character string escape. -/
def escChar (c : Char) : Option Char :=
  if c = '"' then some '"'
  else if c = '\\' then some '\\'
  else if c = '/' then some '/'
  else if c = 'n' then some '\n'
  else if c = 't' then some '\t'
  else if c = 'r' then some '\r'
  else if c = 'b' then some (Char.ofNat 8)
  else if c = 'f' then some (Char.ofNat 12)
  else none

/-- Scan the body of a JSON string literal (opening quote already
consumed), decoding escapes; fuel bounds recursion depth. -/
def scanStr : Nat → List Char → Except String (List Char × List Char)
  | 0, _ => .error "string literal too long"
  | _ + 1, [] => .error "unterminated string literal"
  | fuel + 1, c :: cs =>
    if c = '"' then .ok ([], cs)
    else if c = '\\' then
      match cs with
      | [] => .error "unterminated escape"
      | e :: cs2 =>
        if e = 'u' then
          match cs2 with
          | h1 :: h2 :: h3 :: h4 :: cs3 =>
            match hexDigitVal h1, hexDigitVal h2, hexDigitVal h3, hexDigitVal h4 with
            | some a, some b, some c4, some d =>
              match scanStr fuel cs3 with
              | .ok (s, rest) => .ok (Char.ofNat (((a * 16 + b) * 16 + c4) * 16 + d) :: s, rest)
              | .error msg => .error msg
            | _, _, _, _ => .error "invalid unicode escape"
          | _ => .error "invalid unicode escape"
        else
          match escChar e with
          | some ec =>
            match scanStr fuel cs2 with
            | .ok (s, rest) => .ok (ec :: s, rest)
            | .error msg => .error msg
          | none => .error "invalid escape character"
    else
      match scanStr fuel cs with
      | .ok (s, rest) => .ok (c :: s, rest)
      | .error msg => .error msg

mutual

/-- Recursive-descent parse of one JSON value; fuel bounds nesting. -/
def parseVal : Nat → List Char → Except String (JSValue × List Char)
  | 0, _ => .error "input too deeply nested"
  | _ + 1, [] => .error "unexpected end of input"
  | fuel + 1, c :: cs =>
    if c = 'n' then
      match matchLit ['u', 'l', 'l'] cs with
      | some rest => .ok (.null, rest)
      | none => .error "invalid literal"
    else if c = 't' then
      match matchLit ['r', 'u', 'e'] cs with
      | some rest => .ok (.boolean true, rest)
      | none => .error "invalid literal"
    else if c = 'f' then
      match matchLit ['a', 'l', 's', 'e'] cs with
      | some rest => .ok (.boolean false, rest)
      | none => .error "invalid literal"
    else if c = '"' then
      match scanStr (cs.length + 1) cs with
      | .ok (chars, rest) => .ok (.str (String.mk chars), rest)
      | .error msg => .error msg
    else if c = '-' then
      match takeDigits cs with
      | ([], _) => .error "invalid number"
      | (ds, rest) => .ok (.num (-(Int.ofNat (digitsToNat ds 0))), rest)
    else if c.isDigit then
      match takeDigits (c :: cs) with
      | (ds, rest) => .ok (.num (Int.ofNat (digitsToNat ds 0)), rest)
    else if c = '[' then
      match skipWs cs with
      | ']' :: rest => .ok (.arr [], rest)
      | cs2 =>
        match parseArrItems fuel cs2 with
        | .ok (vs, rest) => .ok (.arr vs, rest)
        | .error msg => .error msg
    else if c = lbraceChar then
      match skipWs cs with
      | [] => .error "unterminated object"
      | c2 :: rest =>
        if c2 = rbraceChar then .ok (.obj [], rest)
        else
          match parseObjFields fuel (c2 :: rest) with
          | .ok (fs, rest2) => .ok (.obj fs, rest2)
          | .error msg => .error msg
    else .error "unexpected character"

/-- Parse the comma-separated items of a non-empty JSON array, up to
and including the closing bracket. -/
def parseArrItems : Nat → List Char → Except String (List JSValue × List Char)
  | 0, _ => .error "input too deeply nested"
  | fuel + 1, cs =>
    match parseVal fuel cs with
    | .error msg => .error msg
    | .ok (v, rest) =>
      match skipWs rest with
      | ',' :: rest2 =>
        match parseArrItems fuel (skipWs rest2) with
        | .ok (vs, rest3) => .ok (v :: vs, rest3)
        | .error msg => .error msg
      | ']' :: rest2 => .ok ([v], rest2)
      | _ => .error "expected comma or close bracket"

/-- Parse the members of a non-empty JSON object, up to and including
the closing brace. -/
def parseObjFields : Nat → List Char → Except String (List (String × JSValue) × List Char)
  | 0, _ => .error "input too deeply nested"
  | fuel + 1, cs =>
    match cs with
    | '"' :: cs1 =>
      match scanStr (cs1.length + 1) cs1 with
      | .error msg => .error msg
      | .ok (kchars, rest) =>
        match skipWs rest with
        | ':' :: rest2 =>
          match parseVal fuel (skipWs rest2) with
          | .error msg => .error msg
          | .ok (v, rest3) =>
            match skipWs rest3 with
            | [] => .error "unterminated object"
            | ',' :: rest4 =>
              match parseObjFields fuel (skipWs rest4) with
              | .ok (fs, rest5) => .ok ((String.mk kchars, v) :: fs, rest5)
              | .error msg => .error msg
            | c2 :: rest4 =>
              if c2 = rbraceChar then .ok ([(String.mk kchars, v)], rest4)
              else .error "expected comma or close brace"
        | _ => .error "expected colon"
    | _ => .error "expected string key"

end

/-- JSON.parse on a text input: parse one value and require only
whitespace to remain. -/
def jsonParse (s : String) : Except String JSValue :=
  match parseVal (2 * s.length + 2) (skipWs s.data) with
  | .error msg => .error msg
  | .ok (v, rest) =>
    match skipWs rest with
    | [] => .ok v
    | _ => .error "unexpected trailing characters"

/-- JSON.parse as called by the facades on a raw reply value: a
non-string argument is first coerced to text (so a null reply parses as
the JSON null). -/
def jsonParseValue (v : JSValue) : Except String JSValue :=
  jsonParse (jsToString v)

/-!
The wire model. A facade method call is embedded as the invocation it
hands to its bound invoker (command name plus argument list) together
with a decode function applied to the raw reply. An argument on the
wire is either a JavaScript value or the client instance itself (the
latter occurs only through the jsonobjkeys slip).
-/

/-- One argument passed to a bound invoker. -/
inductive WireArg where
  | jsval (v : JSValue)
  | client (selfId : Nat)

/-- The invocation a facade method hands to its bound invoker. -/
structure Invocation where
  commandName : String
  args : List WireArg

/-!
The command table and the constructor's binding loop (lines 13-51).
createBuiltinCommand yields a pair of callables; bind ties each to the
instance. An invoker is modelled by the data distinguishing it: the
command it sends, whether it is the string or the buffer variant, and
the instance it is bound to. Property assignment on this.cmds is
modelled by ordered-association-list update.
-/

/-- The static command table Rejson.commands (lines 30-51). -/
def commands : List String :=
  ["JSON.DEL", "JSON.GET", "JSON.MGET", "JSON.SET", "JSON.TYPE",
   "JSON.NUMINCRBY", "JSON.NUMMULTBY", "JSON.STRAPPEND", "JSON.STRLEN",
   "JSON.ARRAPPEND", "JSON.ARRINDEX", "JSON.ARRINSERT", "JSON.ARRLEN",
   "JSON.ARRPOP", "JSON.ARRTRIM", "JSON.OBJKEYS", "JSON.OBJLEN",
   "JSON.DEBUG", "JSON.FORGET", "JSON.RESP"]

/-- Which callable of the created command pair an invoker is: the
text-decoding cmd.string or the binary-safe cmd.buffer. -/
inductive InvokerKind where
  | text
  | buffer
  deriving DecidableEq

/-- A bound invoker: the command it was created for, which variant it
is, and the instance it was bound to with bind. -/
structure BoundInvoker where
  command : String
  kind : InvokerKind
  boundTo : Nat
  deriving DecidableEq

/-- JavaScript property assignment on the cmds object: overwrite the
entry when the key is present, otherwise append it. -/
def objAssign (m : List (String × BoundInvoker)) (k : String) (v : BoundInvoker) :
    List (String × BoundInvoker) :=
  if m.any (fun e => e.1 = k) then
    m.map (fun e => if e.1 = k then (k, v) else e)
  else m ++ [(k, v)]

/-- Key lookup on the cmds object. -/
def lookupCmd (m : List (String × BoundInvoker)) (k : String) : Option BoundInvoker :=
  (m.find? (fun e => e.1 = k)).map (fun e => e.2)

/-- The constructor loop (lines 17-23): starting from an empty cmds
object, for each table entry create the command pair and store the
string variant under the command name and the buffer variant under the
name suffixed with the word Buffer, both bound to this instance. -/
def buildCmds (selfId : Nat) : List (String × BoundInvoker) :=
  commands.foldl
    (fun cmds command =>
      objAssign (objAssign cmds command ⟨command, .text, selfId⟩)
        (command ++ "Buffer") ⟨command, .buffer, selfId⟩)
    []

/-!
Facade methods (lines 64-373), each split into the invocation it sends
and the decoding it applies to the raw reply.
-/

/-- jsonSet (lines 64-67): serialize the value with JSON.stringify and
invoke JSON.SET with key, path and the serialized value. -/
def jsonSetInvocation (key path value : JSValue) : Invocation :=
  ⟨"JSON.SET", [.jsval key, .jsval path, .jsval (stringify value)]⟩

/-- jsonSet reply handling (lines 67-72): the reply OK resolves to
true; any other reply is thrown as an error carrying that reply. -/
def jsonSetDecode (result : JSValue) : Except JSValue Bool :=
  match result with
  | .str s => if s = "OK" then .ok true else .error (.str s)
  | r => .error r

/-- jsonGet (lines 85-87): invoke JSON.GET with key and path as
given. -/
def jsonGetInvocation (key path : JSValue) : Invocation :=
  ⟨"JSON.GET", [.jsval key, .jsval path]⟩

/-- jsonGet reply handling (lines 87-89): JSON.parse the reply. -/
def jsonGetDecode (value : JSValue) : Except String JSValue :=
  jsonParseValue value

/-- jsonMget (lines 102-105): pass the whole arguments list through to
JSON.MGET. -/
def jsonMgetInvocation (args : List JSValue) : Invocation :=
  ⟨"JSON.MGET", args.map .jsval⟩

/-- Element-wise JSON.parse over a reply sequence, in order; the first
element that fails to parse rejects the whole result (a throw inside
the mapping callback propagates). -/
def mapParse : List JSValue → Except String (List JSValue)
  | [] => .ok []
  | r :: rs =>
    match jsonParseValue r with
    | .error e => .error e
    | .ok v =>
      match mapParse rs with
      | .error e => .error e
      | .ok vs => .ok (v :: vs)

/-- jsonMget reply handling (lines 105-109): map JSON.parse over the
reply sequence. -/
def jsonMgetDecode (results : List JSValue) : Except String (List JSValue) :=
  mapParse results

/-- jsonDel (lines 122-124): invoke JSON.DEL with key and path as
given. -/
def jsonDelInvocation (key path : JSValue) : Invocation :=
  ⟨"JSON.DEL", [.jsval key, .jsval path]⟩

/-- jsonDel reply handling (lines 124-126): strict equality of the
reply with the number 1. -/
def jsonDelDecode (result : JSValue) : Bool :=
  match result with
  | .num n => n = 1
  | _ => false

/-- jsonobjkeys (lines 139-141): the call cmd(this, key, path) passes
the client instance itself as the first argument, before key and path;
the reply is returned unchanged. -/
def jsonobjkeysInvocation (selfId : Nat) (key path : JSValue) : Invocation :=
  ⟨"JSON.OBJKEYS", [.client selfId, .jsval key, .jsval path]⟩

/-- jsonNumincrby (lines 188-190): key, path and the number operand are
passed as given, none serialized. -/
def jsonNumincrbyInvocation (key path number : JSValue) : Invocation :=
  ⟨"JSON.NUMINCRBY", [.jsval key, .jsval path, .jsval number]⟩

/-- jsonNummultby (lines 207-209): key, path and the number operand are
passed as given, none serialized. -/
def jsonNummultbyInvocation (key path number : JSValue) : Invocation :=
  ⟨"JSON.NUMMULTBY", [.jsval key, .jsval path, .jsval number]⟩

/-- jsonStrappend (lines 227-229): the string operand is serialized
with JSON.stringify; key and path are passed as given. -/
def jsonStrappendInvocation (key path string : JSValue) : Invocation :=
  ⟨"JSON.STRAPPEND", [.jsval key, .jsval path, .jsval (stringify string)]⟩

/-- jsonArrappend (lines 262-269): slice the arguments into the first
two (key and path) and the rest, JSON.stringify each of the rest, and
invoke JSON.ARRAPPEND with the concatenation. -/
def jsonArrappendInvocation (args : List JSValue) : Invocation :=
  ⟨"JSON.ARRAPPEND", (args.take 2 ++ (args.drop 2).map stringify).map .jsval⟩

/-- jsonArrindex (lines 286-288): the scalar operand is serialized with
JSON.stringify; key and path are passed as given. -/
def jsonArrindexInvocation (key path scalar : JSValue) : Invocation :=
  ⟨"JSON.ARRINDEX", [.jsval key, .jsval path, .jsval (stringify scalar)]⟩

/-- jsonArrinsert (lines 306-313): slice the arguments into the first
three (key, path, index) and the rest, JSON.stringify each of the rest,
and invoke JSON.ARRINSERT with the concatenation. -/
def jsonArrinsertInvocation (args : List JSValue) : Invocation :=
  ⟨"JSON.ARRINSERT", (args.take 3 ++ (args.drop 3).map stringify).map .jsval⟩

/-- jsonArrpop (lines 347-349): key, path and index are passed as
given, none serialized. -/
def jsonArrpopInvocation (key path index : JSValue) : Invocation :=
  ⟨"JSON.ARRPOP", [.jsval key, .jsval path, .jsval index]⟩

/-- jsonArrpop reply handling (lines 349-351): JSON.parse the reply. -/
def jsonArrpopDecode (result : JSValue) : Except String JSValue :=
  jsonParseValue result

/-- jsonArrtrim (lines 370-372): key, path, start and end are passed as
given, none serialized. -/
def jsonArrtrimInvocation (key path start stop : JSValue) : Invocation :=
  ⟨"JSON.ARRTRIM", [.jsval key, .jsval path, .jsval start, .jsval stop]⟩


/-!
Helper lemmas shared by the claim theorems.
-/

/-- A successful element-wise parse relates input and output pointwise
and in order. -/
theorem mapParse_ok_forall2 :
    ∀ (rs vs : List JSValue), mapParse rs = .ok vs →
      List.Forall₂ (fun r v => jsonParseValue r = .ok v) rs vs := by
  intro rs
  induction rs with
  | nil =>
    intro vs h
    cases h
    exact List.Forall₂.nil
  | cons r rs ih =>
    intro vs h
    simp only [mapParse] at h
    cases hr : jsonParseValue r with
    | error e => rw [hr] at h; exact absurd h (by simp)
    | ok v =>
      rw [hr] at h
      cases hrs : mapParse rs with
      | error e => rw [hrs] at h; exact absurd h (by simp)
      | ok ws =>
        rw [hrs] at h
        cases h
        exact List.Forall₂.cons hr (ih ws hrs)

set_option maxHeartbeats 2000000 in
/-- The constructor loop evaluated on the command table: for any
instance, the cmds object holds, in insertion order, one string-variant
invoker under each command name and one buffer-variant invoker under
the command name suffixed with the word Buffer. -/
theorem buildCmds_eq (selfId : Nat) :
    buildCmds selfId =
  [("JSON.DEL", ⟨"JSON.DEL", .text, selfId⟩),
   ("JSON.DELBuffer", ⟨"JSON.DEL", .buffer, selfId⟩),
   ("JSON.GET", ⟨"JSON.GET", .text, selfId⟩),
   ("JSON.GETBuffer", ⟨"JSON.GET", .buffer, selfId⟩),
   ("JSON.MGET", ⟨"JSON.MGET", .text, selfId⟩),
   ("JSON.MGETBuffer", ⟨"JSON.MGET", .buffer, selfId⟩),
   ("JSON.SET", ⟨"JSON.SET", .text, selfId⟩),
   ("JSON.SETBuffer", ⟨"JSON.SET", .buffer, selfId⟩),
   ("JSON.TYPE", ⟨"JSON.TYPE", .text, selfId⟩),
   ("JSON.TYPEBuffer", ⟨"JSON.TYPE", .buffer, selfId⟩),
   ("JSON.NUMINCRBY", ⟨"JSON.NUMINCRBY", .text, selfId⟩),
   ("JSON.NUMINCRBYBuffer", ⟨"JSON.NUMINCRBY", .buffer, selfId⟩),
   ("JSON.NUMMULTBY", ⟨"JSON.NUMMULTBY", .text, selfId⟩),
   ("JSON.NUMMULTBYBuffer", ⟨"JSON.NUMMULTBY", .buffer, selfId⟩),
   ("JSON.STRAPPEND", ⟨"JSON.STRAPPEND", .text, selfId⟩),
   ("JSON.STRAPPENDBuffer", ⟨"JSON.STRAPPEND", .buffer, selfId⟩),
   ("JSON.STRLEN", ⟨"JSON.STRLEN", .text, selfId⟩),
   ("JSON.STRLENBuffer", ⟨"JSON.STRLEN", .buffer, selfId⟩),
   ("JSON.ARRAPPEND", ⟨"JSON.ARRAPPEND", .text, selfId⟩),
   ("JSON.ARRAPPENDBuffer", ⟨"JSON.ARRAPPEND", .buffer, selfId⟩),
   ("JSON.ARRINDEX", ⟨"JSON.ARRINDEX", .text, selfId⟩),
   ("JSON.ARRINDEXBuffer", ⟨"JSON.ARRINDEX", .buffer, selfId⟩),
   ("JSON.ARRINSERT", ⟨"JSON.ARRINSERT", .text, selfId⟩),
   ("JSON.ARRINSERTBuffer", ⟨"JSON.ARRINSERT", .buffer, selfId⟩),
   ("JSON.ARRLEN", ⟨"JSON.ARRLEN", .text, selfId⟩),
   ("JSON.ARRLENBuffer", ⟨"JSON.ARRLEN", .buffer, selfId⟩),
   ("JSON.ARRPOP", ⟨"JSON.ARRPOP", .text, selfId⟩),
   ("JSON.ARRPOPBuffer", ⟨"JSON.ARRPOP", .buffer, selfId⟩),
   ("JSON.ARRTRIM", ⟨"JSON.ARRTRIM", .text, selfId⟩),
   ("JSON.ARRTRIMBuffer", ⟨"JSON.ARRTRIM", .buffer, selfId⟩),
   ("JSON.OBJKEYS", ⟨"JSON.OBJKEYS", .text, selfId⟩),
   ("JSON.OBJKEYSBuffer", ⟨"JSON.OBJKEYS", .buffer, selfId⟩),
   ("JSON.OBJLEN", ⟨"JSON.OBJLEN", .text, selfId⟩),
   ("JSON.OBJLENBuffer", ⟨"JSON.OBJLEN", .buffer, selfId⟩),
   ("JSON.DEBUG", ⟨"JSON.DEBUG", .text, selfId⟩),
   ("JSON.DEBUGBuffer", ⟨"JSON.DEBUG", .buffer, selfId⟩),
   ("JSON.FORGET", ⟨"JSON.FORGET", .text, selfId⟩),
   ("JSON.FORGETBuffer", ⟨"JSON.FORGET", .buffer, selfId⟩),
   ("JSON.RESP", ⟨"JSON.RESP", .text, selfId⟩),
   ("JSON.RESPBuffer", ⟨"JSON.RESP", .buffer, selfId⟩)] := by
  simp [buildCmds, commands, objAssign]

/-!
Claim theorems.
-/

/-- C1: for every call to jsonArrappend and jsonArrinsert with any
number of trailing element arguments, the argument list handed to the
bound invoker is the fixed unserialized prefix (key and path; key, path
and index for insert) followed by each trailing element independently
serialized with JSON.stringify, in caller order. -/
theorem arrappend_arrinsert_variadic_marshal (key path index : JSValue)
    (elements : List JSValue) :
    jsonArrappendInvocation ([key, path] ++ elements)
      = ⟨"JSON.ARRAPPEND", ([key, path] ++ elements.map stringify).map WireArg.jsval⟩ ∧
    jsonArrinsertInvocation ([key, path, index] ++ elements)
      = ⟨"JSON.ARRINSERT", ([key, path, index] ++ elements.map stringify).map WireArg.jsval⟩ :=
  ⟨rfl, rfl⟩

/-- C2: jsonSet sends key, path and the JSON.stringify image of the
value to JSON.SET, resolves to true exactly when the raw reply is the
string OK, and fails with an error carrying the raw reply otherwise. -/
theorem jsonSet_ok_reply_protocol (key path value result : JSValue) :
    jsonSetInvocation key path value
      = ⟨"JSON.SET", [.jsval key, .jsval path, .jsval (stringify value)]⟩ ∧
    (jsonSetDecode result = .ok true ↔ result = .str "OK") ∧
    (result ≠ .str "OK" → jsonSetDecode result = .error result) := by
  refine ⟨rfl, ?_, ?_⟩
  · cases result <;> simp [jsonSetDecode]
  · intro h
    cases result with
    | str s =>
      have hs : ¬ s = "OK" := fun hEq => h (congrArg JSValue.str hEq)
      simp [jsonSetDecode, hs]
    | undef => rfl
    | null => rfl
    | boolean b => rfl
    | num n => rfl
    | arr es => rfl
    | obj fs => rfl

/-- Witness for C2 at a concrete non-OK reply. -/
theorem jsonSet_ok_reply_protocol_witness :
    jsonSetDecode (.str "unknown") = .error (.str "unknown") :=
  (jsonSet_ok_reply_protocol .null .null .null (.str "unknown")).2.2 (by simp)

/-- C3: jsonGet passes key and path through unchanged, decodes the
reply with JSON.parse, resolves to null on a null raw reply (the reply
coerces to the text null before parsing), and fails on malformed reply
text. -/
theorem jsonGet_passthrough_parse (key path : JSValue) :
    jsonGetInvocation key path = ⟨"JSON.GET", [.jsval key, .jsval path]⟩ ∧
    (∀ s, jsonGetDecode (.str s) = jsonParse s) ∧
    jsonGetDecode .null = .ok .null ∧
    ∃ msg, jsonGetDecode (.str "nul") = .error msg :=
  ⟨rfl, fun _ => rfl, rfl, ⟨_, rfl⟩⟩

/-- C4: contrary to its siblings, jsonobjkeys invokes the bound
JSON.OBJKEYS invoker with three arguments, the client instance itself
first and then key and path, because of the call cmd(this, key, path)
on line 141. -/
theorem jsonobjkeys_passes_instance_first :
    jsonobjkeysInvocation 7 (.str "mykey") (.str ".")
      = ⟨"JSON.OBJKEYS", [.client 7, .jsval (.str "mykey"), .jsval (.str ".")]⟩ ∧
    (jsonobjkeysInvocation 7 (.str "mykey") (.str ".")).args.length = 3 :=
  ⟨rfl, rfl⟩

/-- C5: jsonDel invokes JSON.DEL with key and path unchanged and
resolves to true exactly when the raw reply is the number 1, and to
false for every other reply. -/
theorem jsonDel_true_iff_count_one (key path result : JSValue) :
    jsonDelInvocation key path = ⟨"JSON.DEL", [.jsval key, .jsval path]⟩ ∧
    (jsonDelDecode result = true ↔ result = .num 1) := by
  refine ⟨rfl, ?_⟩
  cases result <;> simp [jsonDelDecode]

/-- C6: jsonMget passes its whole argument list (keys then trailing
path) through unserialized, and a successful result parses each reply
element independently, in an order- and length-preserving 1:1
correspondence with the reply sequence. -/
theorem jsonMget_passthrough_parse_ordered (keys : List JSValue) (path : JSValue)
    (results values : List JSValue) (h : jsonMgetDecode results = .ok values) :
    jsonMgetInvocation (keys ++ [path]) = ⟨"JSON.MGET", (keys ++ [path]).map WireArg.jsval⟩ ∧
    List.Forall₂ (fun r v => jsonParseValue r = .ok v) results values ∧
    values.length = results.length :=
  ⟨rfl, mapParse_ok_forall2 results values h,
    (mapParse_ok_forall2 results values h).length_eq.symm⟩

/-- Witness for C6 at a concrete reply sequence. -/
theorem jsonMget_passthrough_parse_ordered_witness :
    List.Forall₂ (fun r v => jsonParseValue r = .ok v)
      [JSValue.str "1", JSValue.null] [JSValue.num 1, JSValue.null] :=
  (jsonMget_passthrough_parse_ordered [] .null [.str "1", .null] [.num 1, .null] rfl).2.1

set_option maxHeartbeats 2000000 in
/-- C7: after construction, every command table entry has exactly one
string-variant invoker stored under the command name and exactly one
buffer-variant invoker stored under the name suffixed with the word
Buffer, both bound to the constructed instance, so a table-name lookup
never fails. -/
theorem constructor_binds_every_command (selfId : Nat) (c : String)
    (hc : c ∈ commands) :
    lookupCmd (buildCmds selfId) c = some ⟨c, .text, selfId⟩ ∧
    lookupCmd (buildCmds selfId) (c ++ "Buffer") = some ⟨c, .buffer, selfId⟩ ∧
    ((buildCmds selfId).filter (fun e => e.1 = c)).length = 1 ∧
    ((buildCmds selfId).filter (fun e => e.1 = c ++ "Buffer")).length = 1 := by
  rw [buildCmds_eq selfId]
  fin_cases hc <;>
    exact ⟨by simp [lookupCmd], by simp [lookupCmd], by simp, by simp⟩

/-- Witness for C7 at a concrete instance and table entry. -/
theorem constructor_binds_every_command_witness :
    lookupCmd (buildCmds 0) "JSON.GET" = some ⟨"JSON.GET", .text, 0⟩ ∧
    lookupCmd (buildCmds 0) "JSON.GETBuffer" = some ⟨"JSON.GET", .buffer, 0⟩ ∧
    ((buildCmds 0).filter (fun e => e.1 = "JSON.GET")).length = 1 ∧
    ((buildCmds 0).filter (fun e => e.1 = "JSON.GETBuffer")).length = 1 :=
  constructor_binds_every_command 0 "JSON.GET" (by simp [commands])

/-- C8: serialization is selective and per-argument: key, path, index,
range bounds and the numeric operands of the increment and multiply
methods go to the invoker untouched, while the strAppend string operand
and the arrIndex scalar operand are serialized with JSON.stringify. -/
theorem selective_argument_serialization
    (key path number string scalar index start stop : JSValue) :
    jsonNumincrbyInvocation key path number
      = ⟨"JSON.NUMINCRBY", [.jsval key, .jsval path, .jsval number]⟩ ∧
    jsonNummultbyInvocation key path number
      = ⟨"JSON.NUMMULTBY", [.jsval key, .jsval path, .jsval number]⟩ ∧
    jsonStrappendInvocation key path string
      = ⟨"JSON.STRAPPEND", [.jsval key, .jsval path, .jsval (stringify string)]⟩ ∧
    jsonArrindexInvocation key path scalar
      = ⟨"JSON.ARRINDEX", [.jsval key, .jsval path, .jsval (stringify scalar)]⟩ ∧
    jsonArrpopInvocation key path index
      = ⟨"JSON.ARRPOP", [.jsval key, .jsval path, .jsval index]⟩ ∧
    jsonArrtrimInvocation key path start stop
      = ⟨"JSON.ARRTRIM", [.jsval key, .jsval path, .jsval start, .jsval stop]⟩ :=
  ⟨rfl, rfl, rfl, rfl, rfl, rfl⟩

/-- C9: jsonArrpop decodes the raw reply with JSON.parse; a null raw
reply (popping from an empty array) coerces to the text null and hence
resolves to null instead of failing, while ordinary payloads parse as
usual. -/
theorem jsonArrpop_null_reply_decodes_null (key path index : JSValue) :
    jsonArrpopInvocation key path index
      = ⟨"JSON.ARRPOP", [.jsval key, .jsval path, .jsval index]⟩ ∧
    (∀ result, jsonArrpopDecode result = jsonParseValue result) ∧
    jsonArrpopDecode .null = .ok .null ∧
    jsonArrpopDecode (.str "[1,2]") = .ok (.arr [.num 1, .num 2]) :=
  ⟨rfl, fun _ => rfl, rfl, rfl⟩

/-- C10: jsonSet applies exactly JSON.stringify to its value and no
local validation: on the non-encodable value undefined the serialized
argument handed to the invoker is undefined itself, not a text string,
and the invocation is still produced. -/
theorem jsonSet_no_local_validation (key path : JSValue) :
    jsonSetInvocation key path .undef
      = ⟨"JSON.SET", [.jsval key, .jsval path, .jsval .undef]⟩ ∧
    stringify .undef = .undef ∧
    ∀ s, stringify .undef ≠ .str s :=
  ⟨rfl, rfl, fun _ h => JSValue.noConfusion h⟩

end Rejson
